import Mathlib

/-!
Shallow embedding of the waveform overlay state and animation core
(src/overlay/main.py), of the audio input circuit breaker
(src/overlay/audio.py), and of the recording timer text
(src/overlay/renderers.py).

Python floats are modelled as exact rationals extended with the three
special values inf, -inf and nan.  The Python builtins min and max are
modelled by their comparison based definitions, which is what gives them
their asymmetric behaviour on nan.  Collaborator inputs (the sampled
audio level, the per bar jitter factors, the signal file flags, the
stream read outcome) are inputs of the step functions.
-/

attribute [local semireducible] Rat.add Rat.mul Rat.sub Rat.inv Rat.ofScientific

set_option maxRecDepth 16000

namespace Overlay

/-- Python float values: a finite rational or one of the IEEE specials. -/
inductive PF where
  | fin : ℚ → PF
  | inf : PF
  | ninf : PF
  | nan : PF
deriving DecidableEq

namespace PF

/-- Negation of a Python float. -/
def neg : PF → PF
  | fin q => fin (-q)
  | inf => ninf
  | ninf => inf
  | nan => nan

/-- Addition of Python floats; nan propagates, inf plus -inf is nan. -/
def add : PF → PF → PF
  | nan, _ => nan
  | _, nan => nan
  | inf, ninf => nan
  | ninf, inf => nan
  | inf, _ => inf
  | _, inf => inf
  | ninf, _ => ninf
  | _, ninf => ninf
  | fin a, fin b => fin (a + b)

/-- Multiplication of Python floats; nan propagates, zero times an
infinity is nan. -/
def mul : PF → PF → PF
  | nan, _ => nan
  | _, nan => nan
  | inf, inf => inf
  | inf, ninf => ninf
  | ninf, inf => ninf
  | ninf, ninf => inf
  | inf, fin b => if b = 0 then nan else if 0 < b then inf else ninf
  | fin a, inf => if a = 0 then nan else if 0 < a then inf else ninf
  | ninf, fin b => if b = 0 then nan else if 0 < b then ninf else inf
  | fin a, ninf => if a = 0 then nan else if 0 < a then ninf else inf
  | fin a, fin b => fin (a * b)

/-- Subtraction of Python floats. -/
def sub (a b : PF) : PF := a.add b.neg

/-- The strict comparison of Python floats: every comparison against nan
is false. -/
def lt : PF → PF → Bool
  | nan, _ => false
  | _, nan => false
  | fin a, fin b => decide (a < b)
  | ninf, ninf => false
  | ninf, _ => true
  | _, ninf => false
  | inf, _ => false
  | fin _, inf => true

/-- Whether a Python float is a finite value inside the closed unit
interval. -/
def inUnitB : PF → Bool
  | fin q => decide (0 ≤ q) && decide (q ≤ 1)
  | _ => false

end PF

/-- The Python builtin min of two arguments: the second argument is
taken exactly when it compares strictly below the first. -/
def pymin (a b : PF) : PF := if PF.lt b a then b else a

/-- The Python builtin max of two arguments: the second argument is
taken exactly when it compares strictly above the first. -/
def pymax (a b : PF) : PF := if PF.lt a b then b else a

/-- NUM_BARS, the number of waveform bars (self.num_bars in main.py). -/
def numBars : ℕ := 16

/-- The double precision value of 2 * math.pi used by the spinner
wraparound in update_animation. -/
def twoPi : ℚ := 884279719003555 / 140737488355328

/-- Overlay state: the fields of WaveformOverlay that drive the
animation core, plus counters recording how many times the audio
cleanup and the main loop quit side effects have run. -/
structure St where
  processingMode : Bool
  isOffline : Bool
  shuttingDown : Bool
  animationProgress : ℚ
  isClosing : Bool
  bars : List PF
  targetBars : List PF
  audioLevels : List PF
  spinnerAngle : ℚ
  overallAudioLevel : PF
  cleanups : ℕ
  quits : ℕ
deriving DecidableEq

/-- The state created by WaveformOverlay.__init__: bars and targets at
the 0.1 floor, empty audio history of zeros, all flags down. -/
def initState : St where
  processingMode := false
  isOffline := false
  shuttingDown := false
  animationProgress := 0
  isClosing := false
  bars := List.replicate numBars (PF.fin (1/10))
  targetBars := List.replicate numBars (PF.fin (1/10))
  audioLevels := List.replicate numBars (PF.fin 0)
  spinnerAngle := 0
  overallAudioLevel := PF.fin 0
  cleanups := 0
  quits := 0

/-- The audio history after one tick: drop the oldest entry, append the
newly sampled level (the pop(0) / append pair in update_audio_levels). -/
def newHist (level : PF) (s : St) : List PF := s.audioLevels.tail ++ [level]

/-- One target bar value: the history value times the jitter factor,
clamped to at most 1.0 by the Python min builtin, then raised to the
0.1 floor (the loop body of update_audio_levels). -/
def barTarget (av : PF) (r : ℚ) : PF :=
  if PF.lt (pymin (av.mul (PF.fin r)) (PF.fin 1)) (PF.fin (1/10))
    then PF.fin (1/10)
    else pymin (av.mul (PF.fin r)) (PF.fin 1)

/-- WaveformOverlay.update_audio_levels: skipped entirely in processing
mode, otherwise updates the exponential moving average of the overall
level, shifts the audio history, and rebuilds the target bars from the
reversed history with per bar jitter.  The sampled level and the jitter
factors are inputs. -/
def update_audio_levels (level : PF) (rnd : ℕ → ℚ) (s : St) : St :=
  if s.processingMode then s
  else
    { s with
      overallAudioLevel :=
        (s.overallAudioLevel.mul (PF.fin (7/10))).add (level.mul (PF.fin (3/10))),
      audioLevels := newHist level s,
      targetBars := (List.range numBars).map fun i =>
        barTarget ((newHist level s).getD (numBars - 1 - i) (PF.fin 0)) (rnd i) }

/-- One bar interpolation step: move three tenths of the way toward the
target, then clamp into the unit interval with the Python max and min
builtins (the loop body of update_animation). -/
def barStep (b t : PF) : PF :=
  pymax (PF.fin 0) (pymin (b.add ((t.sub b).mul (PF.fin (3/10)))) (PF.fin 1))

/-- One spinner step: advance by 0.15, wrap by subtracting two pi when
strictly above it, then clamp defensively into the closed range
(the processing branch of update_animation). -/
def spinStep (a : ℚ) : ℚ :=
  max 0 (min (if twoPi < a + 3/20 then a + 3/20 - twoPi else a + 3/20) twoPi)

/-- WaveformOverlay.update_animation: rotate the spinner while in
processing mode, otherwise interpolate every bar toward its target. -/
def update_animation (s : St) : St :=
  if s.processingMode then { s with spinnerAngle := spinStep s.spinnerAngle }
  else { s with bars := List.zipWith barStep s.bars s.targetBars }

/-- WaveformOverlay.animate_entrance: while closing move the progress
down by 0.04 and on hitting zero run the latched teardown; otherwise
move the progress up by 0.04 until it is clamped at one. -/
def animate_entrance (s : St) : St :=
  if s.isClosing then
    if s.animationProgress - 1/25 ≤ 0 then
      if s.shuttingDown then { s with animationProgress := 0 }
      else
        { s with animationProgress := 0, shuttingDown := true,
                 cleanups := s.cleanups + 1, quits := s.quits + 1 }
    else { s with animationProgress := s.animationProgress - 1/25 }
  else
    if s.animationProgress < 1 then
      if 1 < s.animationProgress + 1/25 then { s with animationProgress := 1 }
      else { s with animationProgress := s.animationProgress + 1/25 }
    else s

/-- WaveformOverlay.on_destroy: latched teardown running the audio
cleanup and the main loop quit at most once. -/
def on_destroy (s : St) : St :=
  if s.shuttingDown then s
  else
    { s with shuttingDown := true,
             cleanups := s.cleanups + 1, quits := s.quits + 1 }

/-- WaveformOverlay.check_processing_mode: enter processing mode and
reset the spinner when the processing signal file is present, and mark
the offline flag when the connection error signal file is present. -/
def check_processing_mode (procSig offSig : Bool) (s : St) : St :=
  if offSig then
    (if procSig && !s.processingMode
      then { s with processingMode := true, spinnerAngle := 0, isOffline := true }
      else { s with isOffline := true })
  else
    (if procSig && !s.processingMode
      then { s with processingMode := true, spinnerAngle := 0 }
      else s)

/-- WaveformOverlay.check_close_signal: raise the closing flag when the
close signal file is present. -/
def check_close_signal (sig : Bool) (s : St) : St :=
  if sig && !s.isClosing then { s with isClosing := true } else s

/-- The entrance timer callback as scheduled: the safe wrapper skips the
handler once the shutdown latch is set. -/
def entranceTick (s : St) : St :=
  if s.shuttingDown then s else animate_entrance s

/-- One scheduler event: which periodic callback fires, together with
the collaborator inputs it consumes. -/
inductive Ev where
  | audio : PF → (ℕ → ℚ) → Ev
  | anim : Ev
  | entrance : Ev
  | signals : Bool → Bool → Ev
  | close : Bool → Ev
  | destroy : Ev

/-- One scheduler step: every timer callback runs through its safe
wrapper, which skips the handler once the shutdown latch is set; the
destroy handler carries its own latch check. -/
def step : Ev → St → St
  | .audio l r, s => if s.shuttingDown then s else update_audio_levels l r s
  | .anim, s => if s.shuttingDown then s else update_animation s
  | .entrance, s => entranceTick s
  | .signals p o, s => if s.shuttingDown then s else check_processing_mode p o s
  | .close b, s => if s.shuttingDown then s else check_close_signal b s
  | .destroy, s => on_destroy s

/-- Run a sequence of scheduler events. -/
def run (evs : List Ev) (s : St) : St := evs.foldl (fun t e => step e t) s

/-- A well behaved event: the sampled level is not nan and the jitter
factors for the sixteen bars lie in the interval the code draws them
from.  Every non audio event is well behaved. -/
def Ev.Good : Ev → Prop
  | .audio l r => l ≠ PF.nan ∧ ∀ i, i < numBars → 4/5 ≤ r i ∧ r i ≤ 6/5
  | .anim => True
  | .entrance => True
  | .signals _ _ => True
  | .close _ => True
  | .destroy => True

instance (e : Ev) : Decidable e.Good :=
  match e with
  | .audio l r =>
      inferInstanceAs (Decidable (l ≠ PF.nan ∧ ∀ i, i < numBars → 4/5 ≤ r i ∧ r i ≤ 6/5))
  | .anim => inferInstanceAs (Decidable True)
  | .entrance => inferInstanceAs (Decidable True)
  | .signals _ _ => inferInstanceAs (Decidable True)
  | .close _ => inferInstanceAs (Decidable True)
  | .destroy => inferInstanceAs (Decidable True)

/-- AudioInput state: the setup failure flag, the processing pause, the
presence of the stream handle, the consecutive read error count, the
global degraded flag, plus counters recording how many times the
degraded flag was raised and how many device reads were attempted. -/
structure AudioSt where
  setupFailed : Bool
  processingMode : Bool
  hasStream : Bool
  readErrors : ℕ
  audioDegraded : Bool
  degradedSets : ℕ
  readAttempts : ℕ
deriving DecidableEq

/-- A freshly set up AudioInput with a live stream. -/
def freshAudio : AudioSt where
  setupFailed := false
  processingMode := false
  hasStream := true
  readErrors := 0
  audioDegraded := false
  degradedSets := 0
  readAttempts := 0

/-- The outcome the audio device produces for one read attempt: the
stream reports inactive, the read raises, or the read succeeds yielding
a sample count and the computed RMS value. -/
inductive ReadOutcome where
  | notActive : ReadOutcome
  | exn : ReadOutcome
  | ok : ℕ → ℚ → ReadOutcome
deriving DecidableEq

/-- self._max_read_errors in AudioInput. -/
def maxReadErrors : ℕ := 10

/-- The try block of AudioInput.get_level: the inactive stream check,
the read with its exception handlers, the zero length check, the RMS
normalisation min(rms / 3000, 1.0), and the error count decrement on a
successful nonempty read. -/
def getLevelRead (o : ReadOutcome) (a : AudioSt) : ℚ × AudioSt :=
  match o with
  | .notActive => (0, { a with readErrors := a.readErrors + 1 })
  | .exn =>
      (0, { a with readErrors := a.readErrors + 1,
                   readAttempts := a.readAttempts + 1 })
  | .ok count rms =>
      if count = 0 then (0, { a with readAttempts := a.readAttempts + 1 })
      else
        (min (rms / 3000) 1,
         { a with readErrors := a.readErrors - 1,
                  readAttempts := a.readAttempts + 1 })

/-- AudioInput.get_level: returns the level together with the updated
state.  Every failure path yields 0.0; the circuit breaker short
circuits before any device interaction once the error count reaches the
threshold; a successful nonempty read returns min(rms / 3000, 1.0) and
lowers the error count by one, floored at zero.  The readAttempts field counts the
paths on which stream.read was executed; the exception handlers and the
degraded flag logic follow the source. -/
def get_level (o : ReadOutcome) (a : AudioSt) : ℚ × AudioSt :=
  if a.setupFailed || a.processingMode then (0, a)
  else if a.hasStream = false then (0, a)
  else if maxReadErrors ≤ a.readErrors then
    (0, { a with audioDegraded := true,
                 degradedSets :=
                   if a.audioDegraded then a.degradedSets else a.degradedSets + 1 })
  else getLevelRead o a

/-- Run a sequence of get_level calls, keeping only the state. -/
def runGL (os : List ReadOutcome) (a : AudioSt) : AudioSt :=
  os.foldl (fun t o => (get_level o t).2) a

/-- The int builtin applied to a rational: truncation toward zero. -/
def pytrunc (q : ℚ) : ℤ := if q < 0 then -((-q).floor) else q.floor

/-- The timer text of renderers.draw_timer: elapsed whole seconds since
start, floored at 0 and capped at 86400, rendered as minutes colon
seconds with the seconds zero padded to two digits. -/
def timerText (now start : ℚ) : String :=
  let e0 : ℤ := pytrunc (now - start)
  let e1 : ℤ := if e0 < 0 then 0 else e0
  let e2 : ℤ := if 86400 < e1 then 86400 else e1
  let minutes : ℕ := e2.toNat / 60
  let seconds : ℕ := e2.toNat % 60
  toString minutes ++ ":" ++
    (if seconds < 10 then "0" ++ toString seconds else toString seconds)

/-- Spec side elapsed seconds: now minus startTime truncated to whole
seconds, floored at 0 and capped at 86400. -/
def elapsedSpec (now start : ℚ) : ℤ := min (max (pytrunc (now - start)) 0) 86400

/-- Spec side timer text built from the spec side elapsed seconds. -/
def timerTextSpec (now start : ℚ) : String :=
  toString ((elapsedSpec now start).toNat / 60)
  ++ ":" ++
  (if (elapsedSpec now start).toNat % 60 < 10
    then "0" ++ toString ((elapsedSpec now start).toNat % 60)
    else toString ((elapsedSpec now start).toNat % 60))

/-! Basic facts about the Python float clamps used by the tick handlers. -/

/-- Every list whose members are finite unit interval values. -/
def BarsOk (l : List PF) : Prop := ∀ b ∈ l, b.inUnitB = true

/-- Every list with no nan member. -/
def NoNan (l : List PF) : Prop := ∀ x ∈ l, x ≠ PF.nan

/-- The value of twoPi is positive. -/
lemma twoPi_pos : (0:ℚ) < twoPi := by norm_num [twoPi]

/-- The Python clamp max(0.0, min(x, 1.0)) lands in the unit interval
for every Python float input, nan included. -/
lemma clamp01_inUnit (x : PF) : (pymax (PF.fin 0) (pymin x (PF.fin 1))).inUnitB = true := by
  cases x with
  | fin q =>
      by_cases h1 : (1:ℚ) < q
      · simp [pymin, pymax, PF.lt, PF.inUnitB, h1]
      · by_cases h0 : (0:ℚ) < q
        · simp only [pymin, pymax, PF.lt, PF.inUnitB]
          simp [h1, h0]
          constructor <;> linarith
        · simp [pymin, pymax, PF.lt, PF.inUnitB, h1, h0]
  | inf => decide
  | ninf => decide
  | nan => decide

/-- One bar interpolation step always produces a finite unit interval
value, whatever the current bar and target values are. -/
lemma barStep_inUnit (b t : PF) : (barStep b t).inUnitB = true := clamp01_inUnit _

/-- On finite inputs the Python min builtin agrees with the
mathematical minimum. -/
lemma pymin_fin (a b : ℚ) : pymin (PF.fin a) (PF.fin b) = PF.fin (min a b) := by
  unfold pymin
  by_cases h : b < a
  · simp [PF.lt, h, min_eq_right h.le]
  · simp [PF.lt, h, min_eq_left (not_lt.mp h)]

/-- On finite inputs the Python max builtin agrees with the
mathematical maximum. -/
lemma pymax_fin (a b : ℚ) : pymax (PF.fin a) (PF.fin b) = PF.fin (max a b) := by
  unfold pymax
  by_cases h : a < b
  · simp [PF.lt, h, max_eq_right h.le]
  · simp [PF.lt, h, max_eq_left (not_lt.mp h)]

/-- On finite inputs the bar interpolation step is the clamped first
order low pass with gain 0.3. -/
lemma barStep_fin (qb qt : ℚ) :
    barStep (PF.fin qb) (PF.fin qt)
      = PF.fin (max 0 (min (qb + (qt - qb) * (3/10)) 1)) := by
  have hv : (PF.fin qb).add (((PF.fin qt).sub (PF.fin qb)).mul (PF.fin (3/10)))
      = PF.fin (qb + (qt - qb) * (3/10)) := by
    simp only [PF.sub, PF.neg, PF.add, PF.mul]
    congr 1
    ring
  unfold barStep
  rw [hv, pymin_fin, pymax_fin]

/-- On a finite history value the bar target is the jittered value
clamped to at most one and floored at one tenth. -/
lemma barTarget_fin (a r : ℚ) :
    barTarget (PF.fin a) r = PF.fin (max (min (a * r) 1) (1/10)) := by
  unfold barTarget
  rw [show (PF.fin a).mul (PF.fin r) = PF.fin (a * r) from rfl, pymin_fin]
  generalize min (a * r) 1 = m
  by_cases h : m < 1/10
  · have hc : PF.lt (PF.fin m) (PF.fin (1/10)) = true := decide_eq_true h
    rw [hc, if_pos rfl, max_eq_right h.le]
  · have hc : PF.lt (PF.fin m) (PF.fin (1/10)) = false := decide_eq_false h
    rw [hc, if_neg Bool.false_ne_true, max_eq_left (not_lt.mp h)]

/-- The bar target is a finite unit interval value whenever the history
value is not nan and the jitter factor is positive. -/
lemma barTarget_inUnit (av : PF) (r : ℚ) (hav : av ≠ PF.nan) (hr : 0 < r) :
    (barTarget av r).inUnitB = true := by
  cases av with
  | fin a =>
      rw [barTarget_fin]
      simp only [PF.inUnitB, Bool.and_eq_true, decide_eq_true_eq]
      constructor
      · have : (0:ℚ) ≤ 1/10 := by norm_num
        exact this.trans (le_max_right _ _)
      · exact max_le (min_le_right _ _) (by norm_num)
  | inf =>
      have hm : PF.inf.mul (PF.fin r) = PF.inf := by
        simp [PF.mul, hr.ne', hr]
      norm_num [barTarget, hm, pymin, PF.lt, PF.inUnitB]
  | ninf =>
      have hm : PF.ninf.mul (PF.fin r) = PF.ninf := by
        simp [PF.mul, hr.ne', hr]
      norm_num [barTarget, hm, pymin, PF.lt, PF.inUnitB]
  | nan => exact absurd rfl hav

/-! Field preservation facts for the individual handlers. -/

/-- The audio tick never touches the displayed bars, the morph
progress, the spinner, the flags or the cleanup counters. -/
lemma update_audio_levels_untouched (level : PF) (rnd : ℕ → ℚ) (s : St) :
    (update_audio_levels level rnd s).bars = s.bars
    ∧ (update_audio_levels level rnd s).animationProgress = s.animationProgress
    ∧ (update_audio_levels level rnd s).spinnerAngle = s.spinnerAngle
    ∧ (update_audio_levels level rnd s).isClosing = s.isClosing
    ∧ (update_audio_levels level rnd s).shuttingDown = s.shuttingDown
    ∧ (update_audio_levels level rnd s).processingMode = s.processingMode
    ∧ (update_audio_levels level rnd s).cleanups = s.cleanups := by
  unfold update_audio_levels
  split <;> exact ⟨rfl, rfl, rfl, rfl, rfl, rfl, rfl⟩

/-- The animation tick never touches the targets, the history, the
overall level, the morph progress, the flags or the cleanup counters. -/
lemma update_animation_untouched (s : St) :
    (update_animation s).targetBars = s.targetBars
    ∧ (update_animation s).audioLevels = s.audioLevels
    ∧ (update_animation s).overallAudioLevel = s.overallAudioLevel
    ∧ (update_animation s).animationProgress = s.animationProgress
    ∧ (update_animation s).isClosing = s.isClosing
    ∧ (update_animation s).shuttingDown = s.shuttingDown
    ∧ (update_animation s).processingMode = s.processingMode
    ∧ (update_animation s).cleanups = s.cleanups := by
  unfold update_animation
  split <;> exact ⟨rfl, rfl, rfl, rfl, rfl, rfl, rfl, rfl⟩

/-- The entrance morph tick never touches the waveform state, the
spinner or the mode flags. -/
lemma animate_entrance_untouched (s : St) :
    (animate_entrance s).bars = s.bars
    ∧ (animate_entrance s).targetBars = s.targetBars
    ∧ (animate_entrance s).audioLevels = s.audioLevels
    ∧ (animate_entrance s).spinnerAngle = s.spinnerAngle
    ∧ (animate_entrance s).overallAudioLevel = s.overallAudioLevel
    ∧ (animate_entrance s).processingMode = s.processingMode
    ∧ (animate_entrance s).isClosing = s.isClosing := by
  unfold animate_entrance
  split_ifs <;> exact ⟨rfl, rfl, rfl, rfl, rfl, rfl, rfl⟩

/-- The signal polling tick never touches the waveform state, the morph
progress, the closing flag or the cleanup counters. -/
lemma check_processing_mode_untouched (p o : Bool) (s : St) :
    (check_processing_mode p o s).bars = s.bars
    ∧ (check_processing_mode p o s).targetBars = s.targetBars
    ∧ (check_processing_mode p o s).audioLevels = s.audioLevels
    ∧ (check_processing_mode p o s).overallAudioLevel = s.overallAudioLevel
    ∧ (check_processing_mode p o s).animationProgress = s.animationProgress
    ∧ (check_processing_mode p o s).isClosing = s.isClosing
    ∧ (check_processing_mode p o s).shuttingDown = s.shuttingDown
    ∧ (check_processing_mode p o s).cleanups = s.cleanups := by
  unfold check_processing_mode
  split_ifs <;> exact ⟨rfl, rfl, rfl, rfl, rfl, rfl, rfl, rfl⟩

/-- The close signal tick only ever raises the closing flag. -/
lemma check_close_signal_untouched (b : Bool) (s : St) :
    (check_close_signal b s).bars = s.bars
    ∧ (check_close_signal b s).targetBars = s.targetBars
    ∧ (check_close_signal b s).audioLevels = s.audioLevels
    ∧ (check_close_signal b s).overallAudioLevel = s.overallAudioLevel
    ∧ (check_close_signal b s).animationProgress = s.animationProgress
    ∧ (check_close_signal b s).spinnerAngle = s.spinnerAngle
    ∧ (check_close_signal b s).shuttingDown = s.shuttingDown
    ∧ (check_close_signal b s).processingMode = s.processingMode
    ∧ (check_close_signal b s).cleanups = s.cleanups := by
  unfold check_close_signal
  split_ifs <;> exact ⟨rfl, rfl, rfl, rfl, rfl, rfl, rfl, rfl, rfl⟩

/-- The destroy handler only ever raises the latch and bumps the
cleanup counters. -/
lemma on_destroy_untouched (s : St) :
    (on_destroy s).bars = s.bars
    ∧ (on_destroy s).targetBars = s.targetBars
    ∧ (on_destroy s).audioLevels = s.audioLevels
    ∧ (on_destroy s).overallAudioLevel = s.overallAudioLevel
    ∧ (on_destroy s).animationProgress = s.animationProgress
    ∧ (on_destroy s).spinnerAngle = s.spinnerAngle
    ∧ (on_destroy s).isClosing = s.isClosing
    ∧ (on_destroy s).processingMode = s.processingMode := by
  unfold on_destroy
  split_ifs <;> exact ⟨rfl, rfl, rfl, rfl, rfl, rfl, rfl, rfl⟩

/-! The reachable state invariants. -/

/-- The unconditional state invariant: displayed bars are finite unit
interval values, morph progress sits in the unit interval, the spinner
angle sits in the closed range up to twoPi. -/
def Inv (s : St) : Prop :=
  BarsOk s.bars ∧ 0 ≤ s.animationProgress ∧ s.animationProgress ≤ 1
    ∧ 0 ≤ s.spinnerAngle ∧ s.spinnerAngle ≤ twoPi

/-- The conditional invariant holding while no nan has been fed in:
target bars are finite unit interval values and the history carries no
nan. -/
def Inv2 (s : St) : Prop := BarsOk s.targetBars ∧ NoNan s.audioLevels

/-- The morph progress always sits on the grid of multiples of 0.04
between 0 and 1. -/
def Grid (s : St) : Prop := ∃ k : ℕ, k ≤ 25 ∧ s.animationProgress = (k : ℚ) / 25

/-- A zipWith of the bar interpolation step only produces finite unit
interval values. -/
lemma barsOk_zipWith (as bs : List PF) : BarsOk (List.zipWith barStep as bs) := by
  induction as generalizing bs with
  | nil => intro b hb; simp at hb
  | cons a as ih =>
      cases bs with
      | nil => intro b hb; simp at hb
      | cons b bs =>
          intro c hc
          rw [List.zipWith_cons_cons] at hc
          rcases List.mem_cons.mp hc with h | h
          · rw [h]; exact barStep_inUnit a b
          · exact ih bs c h

/-- One spinner step stays inside the closed range. -/
lemma spinStep_mem (a : ℚ) : 0 ≤ spinStep a ∧ spinStep a ≤ twoPi := by
  unfold spinStep
  exact ⟨le_max_left 0 _, max_le twoPi_pos.le (min_le_right _ _)⟩

/-- One entrance morph step keeps the progress in the unit interval. -/
lemma animate_entrance_progress_mem (s : St)
    (h0 : 0 ≤ s.animationProgress) (h1 : s.animationProgress ≤ 1) :
    0 ≤ (animate_entrance s).animationProgress
      ∧ (animate_entrance s).animationProgress ≤ 1 := by
  unfold animate_entrance
  split_ifs <;> constructor <;> first | linarith | norm_num

/-- The shifted history carries no nan when the incoming level is not
nan. -/
lemma newHist_noNan (level : PF) (s : St) (hl : level ≠ PF.nan)
    (h : NoNan s.audioLevels) : NoNan (newHist level s) := by
  intro x hx
  rcases List.mem_append.mp hx with hx | hx
  · exact h x (List.mem_of_mem_tail hx)
  · rw [List.mem_singleton.mp hx]; exact hl

/-- Reading the shifted history never yields nan when the incoming
level is not nan. -/
lemma newHist_getD_ne_nan (level : PF) (s : St) (hl : level ≠ PF.nan)
    (h : NoNan s.audioLevels) (n : ℕ) :
    (newHist level s).getD n (PF.fin 0) ≠ PF.nan := by
  rw [List.getD_eq_getD_get?]
  rcases hg : (newHist level s).get? n with _ | x
  · simp
  · simpa using newHist_noNan level s hl h x (List.get?_mem hg)

/-- The unconditional invariant is preserved by every scheduler step,
whatever the collaborator inputs are. -/
lemma inv_step (e : Ev) (s : St) (h : Inv s) : Inv (step e s) := by
  obtain ⟨hb, hp0, hp1, hs0, hs1⟩ := h
  cases e with
  | audio l r =>
      simp only [step]
      split
      · exact ⟨hb, hp0, hp1, hs0, hs1⟩
      · obtain ⟨b1, b2, b3, _⟩ := update_audio_levels_untouched l r s
        exact ⟨by rw [b1]; exact hb, by rw [b2]; exact hp0, by rw [b2]; exact hp1,
               by rw [b3]; exact hs0, by rw [b3]; exact hs1⟩
  | anim =>
      simp only [step]
      split
      · exact ⟨hb, hp0, hp1, hs0, hs1⟩
      · unfold update_animation
        split
        · exact ⟨hb, hp0, hp1, (spinStep_mem _).1, (spinStep_mem _).2⟩
        · exact ⟨barsOk_zipWith _ _, hp0, hp1, hs0, hs1⟩
  | entrance =>
      simp only [step]
      unfold entranceTick
      split
      · exact ⟨hb, hp0, hp1, hs0, hs1⟩
      · obtain ⟨e1, _, _, e4, _⟩ := animate_entrance_untouched s
        obtain ⟨g0, g1⟩ := animate_entrance_progress_mem s hp0 hp1
        exact ⟨by rw [e1]; exact hb, g0, g1, by rw [e4]; exact hs0, by rw [e4]; exact hs1⟩
  | signals p o =>
      simp only [step]
      split
      · exact ⟨hb, hp0, hp1, hs0, hs1⟩
      · unfold check_processing_mode
        split_ifs <;>
          first
          | exact ⟨hb, hp0, hp1, le_refl 0, twoPi_pos.le⟩
          | exact ⟨hb, hp0, hp1, hs0, hs1⟩
  | close b =>
      simp only [step]
      split
      · exact ⟨hb, hp0, hp1, hs0, hs1⟩
      · unfold check_close_signal
        split_ifs <;> exact ⟨hb, hp0, hp1, hs0, hs1⟩
  | destroy =>
      simp only [step]
      unfold on_destroy
      split_ifs <;> exact ⟨hb, hp0, hp1, hs0, hs1⟩

/-- The conditional invariant is preserved by every well behaved
scheduler step. -/
lemma inv2_step (e : Ev) (s : St) (hg : e.Good) (h : Inv2 s) : Inv2 (step e s) := by
  obtain ⟨ht, hh⟩ := h
  cases e with
  | audio l r =>
      obtain ⟨hl, hr⟩ := hg
      simp only [step]
      split
      · exact ⟨ht, hh⟩
      · unfold update_audio_levels
        split
        · exact ⟨ht, hh⟩
        · constructor
          · intro t htm
            rcases List.mem_map.mp htm with ⟨i, hi, rfl⟩
            have hi16 : i < numBars := List.mem_range.mp hi
            exact barTarget_inUnit _ _
              (newHist_getD_ne_nan l s hl hh _)
              (lt_of_lt_of_le (by norm_num) (hr i hi16).1)
          · exact newHist_noNan l s hl hh
  | anim =>
      simp only [step]
      split
      · exact ⟨ht, hh⟩
      · obtain ⟨a1, a2, _⟩ := update_animation_untouched s
        exact ⟨by rw [a1]; exact ht, by rw [a2]; exact hh⟩
  | entrance =>
      simp only [step]
      unfold entranceTick
      split
      · exact ⟨ht, hh⟩
      · obtain ⟨_, e2, e3, _⟩ := animate_entrance_untouched s
        exact ⟨by rw [e2]; exact ht, by rw [e3]; exact hh⟩
  | signals p o =>
      simp only [step]
      split
      · exact ⟨ht, hh⟩
      · obtain ⟨_, c2, c3, _⟩ := check_processing_mode_untouched p o s
        exact ⟨by rw [c2]; exact ht, by rw [c3]; exact hh⟩
  | close b =>
      simp only [step]
      split
      · exact ⟨ht, hh⟩
      · obtain ⟨_, c2, c3, _⟩ := check_close_signal_untouched b s
        exact ⟨by rw [c2]; exact ht, by rw [c3]; exact hh⟩
  | destroy =>
      simp only [step]
      obtain ⟨_, d2, d3, _⟩ := on_destroy_untouched s
      exact ⟨by rw [d2]; exact ht, by rw [d3]; exact hh⟩

/-- The morph progress grid is preserved by the raw entrance morph
handler. -/
lemma grid_animate (s : St) (h : Grid s) : Grid (animate_entrance s) := by
  obtain ⟨k, hk, hp⟩ := h
  unfold animate_entrance
  split_ifs with hc hle hsd hlt hgt
  · exact ⟨0, by norm_num, by norm_num⟩
  · exact ⟨0, by norm_num, by norm_num⟩
  · have hk1 : 1 ≤ k := by
      by_contra hcon
      have hk0 : k = 0 := by omega
      rw [hp, hk0] at hle
      norm_num at hle
    refine ⟨k - 1, by omega, ?_⟩
    show s.animationProgress - 1/25 = ((k - 1 : ℕ) : ℚ) / 25
    rw [hp, Nat.cast_sub hk1]
    push_cast
    ring
  · exact ⟨25, le_refl 25, by norm_num⟩
  · have hklt : k < 25 := by
      by_contra hcon
      have hk25 : k = 25 := by omega
      rw [hp, hk25] at hlt
      norm_num at hlt
    refine ⟨k + 1, by omega, ?_⟩
    show s.animationProgress + 1/25 = ((k + 1 : ℕ) : ℚ) / 25
    rw [hp]
    push_cast
    ring
  · exact ⟨k, hk, hp⟩

/-- The morph progress grid is preserved by every scheduler step. -/
lemma grid_step (e : Ev) (s : St) (h : Grid s) : Grid (step e s) := by
  obtain ⟨k, hk, hp⟩ := h
  cases e with
  | audio l r =>
      simp only [step]
      split
      · exact ⟨k, hk, hp⟩
      · obtain ⟨_, b2, _⟩ := update_audio_levels_untouched l r s
        exact ⟨k, hk, by rw [b2]; exact hp⟩
  | anim =>
      simp only [step]
      split
      · exact ⟨k, hk, hp⟩
      · obtain ⟨_, _, _, a4, _⟩ := update_animation_untouched s
        exact ⟨k, hk, by rw [a4]; exact hp⟩
  | entrance =>
      simp only [step]
      unfold entranceTick
      split
      · exact ⟨k, hk, hp⟩
      · exact grid_animate s ⟨k, hk, hp⟩
  | signals p o =>
      simp only [step]
      split
      · exact ⟨k, hk, hp⟩
      · obtain ⟨_, _, _, _, c5, _⟩ := check_processing_mode_untouched p o s
        exact ⟨k, hk, by rw [c5]; exact hp⟩
  | close b =>
      simp only [step]
      split
      · exact ⟨k, hk, hp⟩
      · obtain ⟨_, _, _, _, c5, _⟩ := check_close_signal_untouched b s
        exact ⟨k, hk, by rw [c5]; exact hp⟩
  | destroy =>
      simp only [step]
      obtain ⟨_, _, _, _, d5, _⟩ := on_destroy_untouched s
      exact ⟨k, hk, by rw [d5]; exact hp⟩

/-- The unconditional invariant holds along every run. -/
lemma inv_run (evs : List Ev) (s : St) (h : Inv s) : Inv (run evs s) := by
  induction evs generalizing s with
  | nil => exact h
  | cons e evs ih => exact ih (step e s) (inv_step e s h)

/-- The conditional invariant holds along every well behaved run. -/
lemma inv2_run (evs : List Ev) (s : St) (hg : ∀ e ∈ evs, e.Good) (h : Inv2 s) :
    Inv2 (run evs s) := by
  induction evs generalizing s with
  | nil => exact h
  | cons e evs ih =>
      exact ih (step e s) (fun x hx => hg x (List.mem_cons_of_mem e hx))
        (inv2_step e s (hg e (List.mem_cons_self e evs)) h)

/-- The morph progress grid holds along every run. -/
lemma grid_run (evs : List Ev) (s : St) (h : Grid s) : Grid (run evs s) := by
  induction evs generalizing s with
  | nil => exact h
  | cons e evs ih => exact ih (step e s) (grid_step e s h)

/-- The initial state satisfies all three invariants. -/
lemma initState_invs : Inv initState ∧ Inv2 initState ∧ Grid initState := by
  refine ⟨⟨?_, by norm_num [initState], by norm_num [initState],
           by norm_num [initState], le_of_lt (by norm_num [initState, twoPi])⟩,
          ⟨?_, ?_⟩, ⟨0, by norm_num, by norm_num [initState]⟩⟩
  · intro b hb
    rw [List.eq_of_mem_replicate hb]
    decide
  · intro b hb
    rw [List.eq_of_mem_replicate hb]
    decide
  · intro b hb
    rw [List.eq_of_mem_replicate hb]
    decide

/-! Helper facts for the closing animation and the teardown latch. -/

/-- Once the shutdown latch is set the scheduled entrance tick is the
identity. -/
lemma entranceTick_fixed (s : St) (h : s.shuttingDown = true) : entranceTick s = s := by
  unfold entranceTick
  rw [h, if_pos rfl]

/-- Once the shutdown latch is set every further entrance tick leaves
the state unchanged. -/
lemma entranceTick_iterate_fixed (s : St) (h : s.shuttingDown = true) (m : ℕ) :
    entranceTick^[m] s = s := by
  induction m with
  | zero => rfl
  | succ m ih => rw [Function.iterate_succ_apply, entranceTick_fixed s h, ih]

/-- With the closing flag up and the latch down, a tick from a progress
at most 0.04 completes the closing: progress zero, latch up, both
teardown side effects run once. -/
lemma entranceTick_completes (s : St) (hc : s.isClosing = true)
    (hsd : s.shuttingDown = false) (hstep : s.animationProgress - 1/25 ≤ 0) :
    entranceTick s = { s with animationProgress := 0,
                              shuttingDown := true,
                              cleanups := s.cleanups + 1,
                              quits := s.quits + 1 } := by
  unfold entranceTick animate_entrance
  rw [hsd, hc, if_neg Bool.false_ne_true, if_pos rfl, if_pos hstep,
    if_neg Bool.false_ne_true]

/-- With the closing flag up and the latch down, a tick from a progress
above 0.04 just lowers the progress by 0.04. -/
lemma entranceTick_decrements (s : St) (hc : s.isClosing = true)
    (hsd : s.shuttingDown = false) (hstep : ¬ s.animationProgress - 1/25 ≤ 0) :
    entranceTick s = { s with animationProgress := s.animationProgress - 1/25 } := by
  unfold entranceTick animate_entrance
  rw [hsd, hc, if_neg Bool.false_ne_true, if_pos rfl, if_neg hstep]

/-- The closing countdown terminates: from any closing state with the
latch down and positive progress bounded by k steps of 0.04, some
number of ticks reaches progress exactly zero with the latch up and
both teardown side effects run exactly once. -/
lemma closing_terminates (k : ℕ) :
    ∀ s : St, s.isClosing = true → s.shuttingDown = false →
      0 < s.animationProgress → s.animationProgress ≤ (k : ℚ) / 25 →
      ∃ n : ℕ, (entranceTick^[n] s).animationProgress = 0
        ∧ (entranceTick^[n] s).shuttingDown = true
        ∧ (entranceTick^[n] s).cleanups = s.cleanups + 1
        ∧ (entranceTick^[n] s).quits = s.quits + 1 := by
  induction k with
  | zero =>
      intro s _ _ hp hle
      norm_num at hle
      exact absurd hp (by linarith)
  | succ k ih =>
      intro s hc hsd hp hle
      by_cases hstep : s.animationProgress - 1/25 ≤ 0
      · refine ⟨1, ?_⟩
        rw [Function.iterate_one, entranceTick_completes s hc hsd hstep]
        exact ⟨rfl, rfl, rfl, rfl⟩
      · have hs2 := entranceTick_decrements s hc hsd hstep
        have hle2 : (entranceTick s).animationProgress ≤ (k : ℚ) / 25 := by
          rw [hs2]
          show s.animationProgress - 1/25 ≤ (k : ℚ) / 25
          push_cast at hle
          linarith
        obtain ⟨n, h1, h2, h3, h4⟩ := ih (entranceTick s)
          (by rw [hs2]; exact hc) (by rw [hs2]; exact hsd)
          (by rw [hs2]; show 0 < s.animationProgress - 1/25; linarith) hle2
        refine ⟨n + 1, ?_, ?_, ?_, ?_⟩
        · rw [Function.iterate_succ_apply]; exact h1
        · rw [Function.iterate_succ_apply]; exact h2
        · rw [Function.iterate_succ_apply, h3, hs2]
        · rw [Function.iterate_succ_apply, h4, hs2]

/-! The claims. -/

/-- Claim C1 counterexample: one audio tick from the initial state with
the adversarial collaborator level -1.0 (a negative number instead of a
value in [0,1]) drives overallAudioLevel to -0.3, a value outside the
unit interval, because update_audio_levels never clamps the overall
level; and one audio tick with level nan puts nan into targetBars,
because min(nan * jitter, 1.0) is nan and nan < 0.1 is false, so
neither the clamp nor the floor replaces it. -/
theorem c1_overall_level_escapes :
    (run [Ev.audio (PF.fin (-1)) (fun _ => 1)] initState).overallAudioLevel
        = PF.fin (-3/10)
    ∧ ((run [Ev.audio (PF.fin (-1)) (fun _ => 1)] initState).overallAudioLevel).inUnitB
        = false
    ∧ (run [Ev.audio PF.nan (fun _ => 1)] initState).targetBars.get? 0
        = some PF.nan := by
  refine ⟨by decide, by decide, by decide⟩

/-- Claim C1 (amended): after every tick sequence from the initial
state, even with adversarial (nan, infinite or negative) collaborator
levels, every displayed bar is a finite value in [0,1], the morph
progress lies in [0,1], and the spinner angle lies in the closed
interval [0, twoPi]; when moreover no sampled level is nan and the
jitter factors stay inside [0.8, 1.2], every target bar is a finite
value in [0,1].  overallAudioLevel carries no such guarantee, and the
spinner bound is the closed interval produced by the defensive clamp. -/
theorem c1_state_invariants (evs : List Ev) :
    BarsOk (run evs initState).bars
    ∧ 0 ≤ (run evs initState).animationProgress
    ∧ (run evs initState).animationProgress ≤ 1
    ∧ 0 ≤ (run evs initState).spinnerAngle
    ∧ (run evs initState).spinnerAngle ≤ twoPi
    ∧ ((∀ e ∈ evs, e.Good) → BarsOk (run evs initState).targetBars) := by
  obtain ⟨hi, hi2, _⟩ := initState_invs
  obtain ⟨hb, hp0, hp1, hs0, hs1⟩ := inv_run evs initState hi
  exact ⟨hb, hp0, hp1, hs0, hs1, fun hg => (inv2_run evs initState hg hi2).1⟩

/-- Witness for claim C1: the amended invariant instantiated on a
concrete well behaved run of one audio tick and one animation tick. -/
theorem c1_state_invariants_witness :
    BarsOk (run [Ev.audio (PF.fin (1/2)) (fun _ => 1), Ev.anim] initState).targetBars := by
  exact (c1_state_invariants [Ev.audio (PF.fin (1/2)) (fun _ => 1), Ev.anim]).2.2.2.2.2
    (by decide)

/-- Claim C2: from every closing state with the latch down and positive
progress, each entrance morph tick strictly decreases the progress, and
after finitely many ticks the progress is exactly zero, the latch is
up, both teardown side effects have run exactly once, and every further
tick leaves the state unchanged. -/
theorem c2_closing_convergence (s : St) (hc : s.isClosing = true)
    (hsd : s.shuttingDown = false) (hp : 0 < s.animationProgress) :
    (entranceTick s).animationProgress < s.animationProgress
    ∧ ∃ n : ℕ, (entranceTick^[n] s).animationProgress = 0
        ∧ (entranceTick^[n] s).shuttingDown = true
        ∧ (entranceTick^[n] s).cleanups = s.cleanups + 1
        ∧ (entranceTick^[n] s).quits = s.quits + 1
        ∧ ∀ m : ℕ, entranceTick^[m] (entranceTick^[n] s) = entranceTick^[n] s := by
  constructor
  · by_cases hstep : s.animationProgress - 1/25 ≤ 0
    · rw [entranceTick_completes s hc hsd hstep]
      exact hp
    · rw [entranceTick_decrements s hc hsd hstep]
      show s.animationProgress - 1/25 < s.animationProgress
      linarith
  · have hb : s.animationProgress ≤ (⌈(25:ℚ) * s.animationProgress⌉₊ : ℚ) / 25 := by
      have h := Nat.le_ceil ((25:ℚ) * s.animationProgress)
      linarith
    obtain ⟨n, h1, h2, h3, h4⟩ :=
      closing_terminates ⌈(25:ℚ) * s.animationProgress⌉₊ s hc hsd hp hb
    exact ⟨n, h1, h2, h3, h4, fun m => entranceTick_iterate_fixed _ h2 m⟩

/-- Witness for claim C2: the strict decrease instantiated on the
concrete closing state at progress 0.1. -/
theorem c2_closing_convergence_witness :
    (entranceTick { initState with isClosing := true, animationProgress := 1/10 }).animationProgress
      < ({ initState with isClosing := true, animationProgress := 1/10 } : St).animationProgress := by
  exact (c2_closing_convergence
    { initState with isClosing := true, animationProgress := 1/10 }
    rfl rfl (by show (0:ℚ) < 1/10; norm_num)).1

/-- Claim C3: with the latch down, a closing state about to reach
progress zero runs the teardown side effects exactly once whichever
order the closing completion tick and the destroy handler fire in; the
second trigger observes the latch and does nothing. -/
theorem c3_teardown_idempotent (s : St) (hsd : s.shuttingDown = false)
    (hc : s.isClosing = true) (hp : s.animationProgress ≤ 1/25) :
    (on_destroy (entranceTick s)).cleanups = s.cleanups + 1
    ∧ (on_destroy (entranceTick s)).quits = s.quits + 1
    ∧ (entranceTick (on_destroy s)).cleanups = s.cleanups + 1
    ∧ (entranceTick (on_destroy s)).quits = s.quits + 1 := by
  have h1 := entranceTick_completes s hc hsd (by linarith)
  have h2 : on_destroy s = { s with shuttingDown := true,
                                    cleanups := s.cleanups + 1,
                                    quits := s.quits + 1 } := by
    unfold on_destroy
    rw [hsd, if_neg Bool.false_ne_true]
  refine ⟨?_, ?_, ?_, ?_⟩
  · rw [h1]; unfold on_destroy; rw [if_pos rfl]
  · rw [h1]; unfold on_destroy; rw [if_pos rfl]
  · rw [h2, entranceTick_fixed _ rfl]
  · rw [h2, entranceTick_fixed _ rfl]

/-- Witness for claim C3: the double teardown instantiated on the
concrete closing initial state. -/
theorem c3_teardown_idempotent_witness :
    (on_destroy (entranceTick { initState with isClosing := true })).cleanups = 1 := by
  exact (c3_teardown_idempotent { initState with isClosing := true } rfl rfl
    (by show (0:ℚ) ≤ 1/25; norm_num)).1

/-- Claim C4: on every reachable state whose closing flag is down, one
entrance morph tick never decreases the progress, advances it by
exactly 0.04 while it is below 1.0, and keeps it at exactly 1.0 once
reached. -/
theorem c4_entrance_monotone (evs : List Ev)
    (hc : (run evs initState).isClosing = false) :
    (run evs initState).animationProgress
        ≤ (animate_entrance (run evs initState)).animationProgress
    ∧ ((run evs initState).animationProgress < 1 →
        (animate_entrance (run evs initState)).animationProgress
          = (run evs initState).animationProgress + 1/25)
    ∧ ((run evs initState).animationProgress = 1 →
        (animate_entrance (run evs initState)).animationProgress = 1) := by
  obtain ⟨_, _, hgr⟩ := initState_invs
  obtain ⟨k, hk, hp⟩ := grid_run evs initState hgr
  set s := run evs initState with hs
  unfold animate_entrance
  rw [hc, if_neg Bool.false_ne_true]
  by_cases hlt : s.animationProgress < 1
  · have hk24 : k < 25 := by
      by_contra hcon
      have hk25 : k = 25 := by omega
      rw [hp, hk25] at hlt
      norm_num at hlt
    have hle : s.animationProgress + 1/25 ≤ 1 := by
      rw [hp]
      have hcast : (k : ℚ) ≤ 24 := by exact_mod_cast Nat.lt_succ_iff.mp (by omega)
      linarith
    rw [if_pos hlt, if_neg (not_lt.mpr hle)]
    exact ⟨by show s.animationProgress ≤ s.animationProgress + 1/25; linarith,
           fun _ => rfl,
           fun h1 => absurd (h1 ▸ hlt) (lt_irrefl 1)⟩
  · rw [if_neg hlt]
    exact ⟨le_refl _, fun h => absurd h hlt, fun h1 => h1⟩

/-- Witness for claim C4: the fixed step instantiated on the empty run,
advancing the initial progress 0 to 0.04. -/
theorem c4_entrance_monotone_witness :
    initState.animationProgress ≤ (animate_entrance initState).animationProgress := by
  exact (c4_entrance_monotone [] rfl).1

/-- The convergence scenario of claim C5: every bar at the initial 0.1
and every target held constant at 1.0. -/
def convState : St := { initState with targetBars := List.replicate numBars (PF.fin 1) }

/-- Claim C5: outside processing mode, each animation tick moves every
bar to bars plus three tenths of the gap to its target, clamped into
[0,1]; and in the concrete scenario with all targets at 1.0 and all
bars at 0.1, twenty ticks push every bar strictly above 0.99. -/
theorem c5_bar_interpolation (s : St) (hm : s.processingMode = false)
    (i : ℕ) (qb qt : ℚ)
    (hb : s.bars.get? i = some (PF.fin qb))
    (ht : s.targetBars.get? i = some (PF.fin qt)) :
    (update_animation s).bars.get? i
      = some (PF.fin (max 0 (min (qb + (qt - qb) * (3/10)) 1)))
    ∧ (update_animation^[20] convState).bars.all
        (fun b => PF.lt (PF.fin (99/100)) b) = true := by
  constructor
  · unfold update_animation
    rw [hm, if_neg Bool.false_ne_true]
    show (List.zipWith barStep s.bars s.targetBars).get? i = _
    rw [List.get?_zipWith', hb, ht]
    show some (barStep (PF.fin qb) (PF.fin qt)) = _
    rw [barStep_fin]
  · decide

/-- Witness for claim C5: the interpolation formula instantiated at bar
zero of the convergence scenario. -/
theorem c5_bar_interpolation_witness :
    (update_animation convState).bars.get? 0
      = some (PF.fin (max 0 (min ((1:ℚ)/10 + (1 - 1/10) * (3/10)) 1))) := by
  exact (c5_bar_interpolation convState rfl 0 (1/10) 1 (by decide) (by decide)).1

/-- Claim C6: on an audio tick outside processing mode the overall
level becomes its exponential moving average with weight 0.3 on the new
level, the history drops its oldest entry and appends the level keeping
exactly NUM_BARS entries, and each target bar is the reversed history
entry times its own jitter factor, clamped to at most 1.0 and floored
at 0.1. -/
theorem c6_audio_tick_update (s : St) (level : PF) (rnd : ℕ → ℚ)
    (hm : s.processingMode = false) (hlen : s.audioLevels.length = numBars) :
    (∀ q l, s.overallAudioLevel = PF.fin q → level = PF.fin l →
        (update_audio_levels level rnd s).overallAudioLevel
          = PF.fin (q * (7/10) + l * (3/10)))
    ∧ (update_audio_levels level rnd s).audioLevels = s.audioLevels.tail ++ [level]
    ∧ (update_audio_levels level rnd s).audioLevels.length = numBars
    ∧ ∀ i, i < numBars → ∀ a,
        (s.audioLevels.tail ++ [level]).getD (numBars - 1 - i) (PF.fin 0) = PF.fin a →
        (update_audio_levels level rnd s).targetBars.get? i
          = some (PF.fin (max (min (a * rnd i) 1) (1/10))) := by
  refine ⟨?_, ?_, ?_, ?_⟩
  · intro q l hq hl
    unfold update_audio_levels
    rw [hm, if_neg Bool.false_ne_true, hq, hl]
    rfl
  · unfold update_audio_levels
    rw [hm, if_neg Bool.false_ne_true]
    rfl
  · unfold update_audio_levels
    rw [hm, if_neg Bool.false_ne_true]
    show (newHist level s).length = numBars
    unfold newHist
    rw [List.length_append, List.length_tail, hlen]
    rfl
  · intro i hi a ha
    unfold update_audio_levels
    rw [hm, if_neg Bool.false_ne_true]
    show ((List.range numBars).map fun j =>
        barTarget ((newHist level s).getD (numBars - 1 - j) (PF.fin 0)) (rnd j)).get? i = _
    rw [List.get?_map, List.get?_eq_getElem?, List.getElem?_range hi]
    show some (barTarget ((newHist level s).getD (numBars - 1 - i) (PF.fin 0)) (rnd i)) = _
    unfold newHist
    rw [ha, barTarget_fin]

/-- Witness for claim C6: the history shift instantiated on the initial
state with level one half. -/
theorem c6_audio_tick_update_witness :
    (update_audio_levels (PF.fin (1/2)) (fun _ => 1) initState).audioLevels
      = initState.audioLevels.tail ++ [PF.fin (1/2)] := by
  exact (c6_audio_tick_update initState (PF.fin (1/2)) (fun _ => 1) rfl (by decide)).2.1

/-- Claim C10: while processing mode is active every scheduler tick
leaves bars, targetBars, audioHistory and overallAudioLevel unchanged:
the audio tick returns immediately and the animation tick only moves
the spinner angle. -/
theorem c10_processing_freezes (s : St) (hm : s.processingMode = true) :
    (∀ level rnd, update_audio_levels level rnd s = s)
    ∧ (∃ a : ℚ, update_animation s = { s with spinnerAngle := a })
    ∧ ∀ e : Ev, (step e s).bars = s.bars
        ∧ (step e s).targetBars = s.targetBars
        ∧ (step e s).audioLevels = s.audioLevels
        ∧ (step e s).overallAudioLevel = s.overallAudioLevel := by
  have hau : ∀ level rnd, update_audio_levels level rnd s = s := by
    intro level rnd
    unfold update_audio_levels
    rw [hm, if_pos rfl]
  have han : update_animation s = { s with spinnerAngle := spinStep s.spinnerAngle } := by
    unfold update_animation
    rw [hm, if_pos rfl]
  refine ⟨hau, ⟨spinStep s.spinnerAngle, han⟩, ?_⟩
  intro e
  cases e with
  | audio l r =>
      simp only [step]
      split
      · exact ⟨rfl, rfl, rfl, rfl⟩
      · rw [hau l r]
        exact ⟨rfl, rfl, rfl, rfl⟩
  | anim =>
      simp only [step]
      split
      · exact ⟨rfl, rfl, rfl, rfl⟩
      · rw [han]
        exact ⟨rfl, rfl, rfl, rfl⟩
  | entrance =>
      simp only [step]
      unfold entranceTick
      split
      · exact ⟨rfl, rfl, rfl, rfl⟩
      · obtain ⟨e1, e2, e3, _, e5, _⟩ := animate_entrance_untouched s
        exact ⟨e1, e2, e3, e5⟩
  | signals p o =>
      simp only [step]
      split
      · exact ⟨rfl, rfl, rfl, rfl⟩
      · obtain ⟨c1, c2, c3, c4, _⟩ := check_processing_mode_untouched p o s
        exact ⟨c1, c2, c3, c4⟩
  | close b =>
      simp only [step]
      split
      · exact ⟨rfl, rfl, rfl, rfl⟩
      · obtain ⟨c1, c2, c3, c4, _⟩ := check_close_signal_untouched b s
        exact ⟨c1, c2, c3, c4⟩
  | destroy =>
      simp only [step]
      obtain ⟨d1, d2, d3, d4, _⟩ := on_destroy_untouched s
      exact ⟨d1, d2, d3, d4⟩

/-- Witness for claim C10: the frozen audio tick instantiated on the
processing initial state. -/
theorem c10_processing_freezes_witness :
    update_audio_levels (PF.fin 1) (fun _ => 1) { initState with processingMode := true }
      = { initState with processingMode := true } := by
  exact (c10_processing_freezes { initState with processingMode := true } rfl).1
    (PF.fin 1) (fun _ => 1)

/-! Helper facts for the audio circuit breaker. -/

/-- One short circuited call: with the pre checks passing and the error
count at the threshold, get_level returns zero without reaching the try
block, raises the degraded flag, and bumps the set counter exactly when
the flag was down. -/
lemma get_level_circuit (o : ReadOutcome) (a : AudioSt) (hs : a.setupFailed = false)
    (hp : a.processingMode = false) (hst : a.hasStream = true)
    (h10 : maxReadErrors ≤ a.readErrors) :
    get_level o a
      = (0, { a with audioDegraded := true,
                     degradedSets :=
                       if a.audioDegraded then a.degradedSets
                       else a.degradedSets + 1 }) := by
  unfold get_level
  rw [hs, hp, hst]
  rw [if_neg (by simp), if_neg (by simp), if_pos h10]

/-- While the circuit is open and the flag already raised, any sequence
of further calls leaves the audio state unchanged. -/
lemma runGL_open_fixed (os : List ReadOutcome) :
    ∀ a : AudioSt, a.setupFailed = false → a.processingMode = false →
      a.hasStream = true → maxReadErrors ≤ a.readErrors → a.audioDegraded = true →
      runGL os a = a := by
  induction os with
  | nil => intro a _ _ _ _ _; rfl
  | cons o os ih =>
      intro a hs hp hst h10 hd
      show runGL os (get_level o a).2 = a
      have hstep : (get_level o a).2 = a := by
        rw [get_level_circuit o a hs hp hst h10]
        show ({ a with audioDegraded := true,
                       degradedSets :=
                         if a.audioDegraded then a.degradedSets
                         else a.degradedSets + 1 } : AudioSt) = a
        rw [hd, if_pos rfl, ← hd]
      rw [hstep]
      exact ih a hs hp hst h10 hd

/-- Claim C7 counterexample: starting from a fresh audio state, two
failed reads followed by one successful read leave the consecutive
error count at 1, not 0: in the source a successful read only runs
self.readErrors = max(0, self.readErrors - 1), it does not clear the
count. -/
theorem c7_success_does_not_clear :
    ¬ (runGL [ReadOutcome.exn, ReadOutcome.exn, ReadOutcome.ok 512 0]
        freshAudio).readErrors = 0 := by
  decide

/-- Claim C7 (amended): with setup succeeded, processing off and the
stream present, once the error count reaches 10 every call returns 0.0
without attempting a device read and leaves the count unchanged, the
degraded flag is raised on the first such call and its set counter is
bumped exactly once over any subsequent sequence of calls; a successful
nonempty read decrements the consecutive error count by one (floored at
zero) rather than clearing it. -/
theorem c7_circuit_breaker (a : AudioSt) (hs : a.setupFailed = false)
    (hp : a.processingMode = false) (hst : a.hasStream = true) :
    (∀ o, maxReadErrors ≤ a.readErrors →
        (get_level o a).1 = 0
        ∧ (get_level o a).2.readAttempts = a.readAttempts
        ∧ (get_level o a).2.readErrors = a.readErrors
        ∧ (get_level o a).2.audioDegraded = true
        ∧ (a.audioDegraded = false →
            (get_level o a).2.degradedSets = a.degradedSets + 1)
        ∧ (a.audioDegraded = true →
            (get_level o a).2.degradedSets = a.degradedSets))
    ∧ (∀ c r, c ≠ 0 → a.readErrors < maxReadErrors →
        (get_level (ReadOutcome.ok c r) a).2.readErrors = a.readErrors - 1)
    ∧ (∀ o os, maxReadErrors ≤ a.readErrors →
        (runGL (o :: os) a).readErrors = a.readErrors
        ∧ (runGL (o :: os) a).audioDegraded = true
        ∧ (runGL (o :: os) a).degradedSets
            = (if a.audioDegraded then a.degradedSets else a.degradedSets + 1)) := by
  refine ⟨?_, ?_, ?_⟩
  · intro o h10
    rw [get_level_circuit o a hs hp hst h10]
    refine ⟨rfl, rfl, rfl, rfl, ?_, ?_⟩
    · intro hd
      show (if a.audioDegraded then a.degradedSets else a.degradedSets + 1)
        = a.degradedSets + 1
      rw [hd, if_neg Bool.false_ne_true]
    · intro hd
      show (if a.audioDegraded then a.degradedSets else a.degradedSets + 1)
        = a.degradedSets
      rw [hd, if_pos rfl]
  · intro c r hc h10
    unfold get_level
    rw [hs, hp, hst]
    rw [if_neg (by simp), if_neg (by simp), if_neg (not_le.mpr h10)]
    simp only [getLevelRead]
    rw [if_neg hc]
  · intro o os h10
    have h2 : (get_level o a).2
        = { a with audioDegraded := true,
                   degradedSets :=
                     if a.audioDegraded then a.degradedSets
                     else a.degradedSets + 1 } := by
      rw [get_level_circuit o a hs hp hst h10]
    show (runGL os (get_level o a).2).readErrors = a.readErrors
      ∧ (runGL os (get_level o a).2).audioDegraded = true
      ∧ (runGL os (get_level o a).2).degradedSets
          = (if a.audioDegraded then a.degradedSets else a.degradedSets + 1)
    rw [h2, runGL_open_fixed os
      { a with audioDegraded := true,
               degradedSets :=
                 if a.audioDegraded then a.degradedSets
                 else a.degradedSets + 1 }
      hs hp hst h10 rfl]
    exact ⟨rfl, rfl, rfl⟩

/-- Witness for claim C7: the short circuit instantiated on a fresh
state whose error count just reached the threshold. -/
theorem c7_circuit_breaker_witness :
    (get_level ReadOutcome.exn { freshAudio with readErrors := 10 }).1 = 0 := by
  exact ((c7_circuit_breaker { freshAudio with readErrors := 10 } rfl rfl rfl).1
    ReadOutcome.exn (by decide)).1

/-- A well behaved read outcome: any RMS value handed over by a
successful read is nonnegative, as the square root of a nonnegative
mean of squares always is. -/
def GoodRms (o : ReadOutcome) : Prop := ∀ c r, o = ReadOutcome.ok c r → 0 ≤ r

/-- Claim C8: get_level is a total function returning a value in [0,1],
and it returns exactly 0.0 on every failure path: setup failed,
processing mode active, stream absent, circuit breaker open, stream
inactive, any exception during the read, and an empty read. -/
theorem c8_get_level_bounds (a : AudioSt) (o : ReadOutcome) (hr : GoodRms o) :
    (0 ≤ (get_level o a).1 ∧ (get_level o a).1 ≤ 1)
    ∧ (a.setupFailed = true → (get_level o a).1 = 0)
    ∧ (a.processingMode = true → (get_level o a).1 = 0)
    ∧ (a.hasStream = false → (get_level o a).1 = 0)
    ∧ (maxReadErrors ≤ a.readErrors → (get_level o a).1 = 0)
    ∧ (o = ReadOutcome.notActive → (get_level o a).1 = 0)
    ∧ (o = ReadOutcome.exn → (get_level o a).1 = 0)
    ∧ (∀ r, o = ReadOutcome.ok 0 r → (get_level o a).1 = 0) := by
  refine ⟨?_, ?_, ?_, ?_, ?_, ?_, ?_, ?_⟩
  · unfold get_level
    split_ifs with h1 h2 h3 h4
    · exact ⟨le_refl 0, by norm_num⟩
    · exact ⟨le_refl 0, by norm_num⟩
    · exact ⟨le_refl 0, by norm_num⟩
    · exact ⟨le_refl 0, by norm_num⟩
    · cases o with
      | notActive => exact ⟨le_refl 0, (by norm_num : (0:ℚ) ≤ 1)⟩
      | exn => exact ⟨le_refl 0, (by norm_num : (0:ℚ) ≤ 1)⟩
      | ok c r =>
          have h0r : (0:ℚ) ≤ r := hr c r rfl
          simp only [getLevelRead]
          split_ifs with hc
          · exact ⟨le_refl 0, (by norm_num : (0:ℚ) ≤ 1)⟩
          · exact ⟨le_min (div_nonneg h0r (by norm_num)) (by norm_num),
                   min_le_right _ _⟩
  · intro h
    unfold get_level
    rw [h, if_pos (by simp)]
  · intro h
    unfold get_level
    rw [h, if_pos (by simp)]
  · intro h
    unfold get_level
    split_ifs <;> rfl
  · intro h10
    unfold get_level
    split_ifs <;> rfl
  · rintro rfl
    unfold get_level
    split_ifs <;> rfl
  · rintro rfl
    unfold get_level
    split_ifs <;> rfl
  · intro r hok
    subst hok
    unfold get_level
    split_ifs <;> rfl

/-- Witness for claim C8: the bounds instantiated on a fresh state and
a successful read of 512 samples with RMS value 9. -/
theorem c8_get_level_bounds_witness :
    0 ≤ (get_level (ReadOutcome.ok 512 9) freshAudio).1
    ∧ (get_level (ReadOutcome.ok 512 9) freshAudio).1 ≤ 1 := by
  exact (c8_get_level_bounds freshAudio (ReadOutcome.ok 512 9)
    (fun c r h => by cases h; norm_num)).1

/-- Claim C9: the displayed timer text is the whole elapsed seconds
since start, floored at 0 and capped at 86400, rendered as minutes
colon seconds with the seconds zero padded to two digits; in
particular, with the start time 125 seconds in the past the text is
exactly 2:05. -/
theorem c9_timer_text (now start : ℚ) :
    timerText now start = timerTextSpec now start
    ∧ timerText 125 0 = "2:05" := by
  constructor
  · unfold timerText timerTextSpec elapsedSpec
    have h2 : (if 86400 < (if pytrunc (now - start) < 0 then 0 else pytrunc (now - start))
          then (86400:ℤ)
          else (if pytrunc (now - start) < 0 then 0 else pytrunc (now - start)))
        = min (max (pytrunc (now - start)) 0) 86400 := by
      rcases lt_or_le (pytrunc (now - start)) 0 with h | h
      · rw [if_pos h, max_eq_right h.le, if_neg (by norm_num),
          min_eq_left (by norm_num)]
      · rw [if_neg (not_lt.mpr h), max_eq_left h]
        rcases lt_or_le (86400:ℤ) (pytrunc (now - start)) with h8 | h8
        · rw [if_pos h8, min_eq_right h8.le]
        · rw [if_neg (not_lt.mpr h8), min_eq_left h8]
    dsimp only
    rw [h2]
  · decide

end Overlay
